import Mathlib

/-!
Shallow embedding of src/storage/storage_backend_sheepdog.c (the libvirt
sheepdog storage backend): the byte-level report scanners, the three report
parsers (node info, vdi list, single vdi), the command builders, and the five
backend operations, together with theorems checking the specification claims.

C strings are modeled as List Char (the bytes before the terminating NUL);
cursors are Nat indices into that list, and a read at or past the end of the
list yields the NUL byte, matching a read of the terminator.  The external
process runner is an oracle argument mapping an argument vector to an exit
status and a captured stdout blob.  In-place mutation of pool and volume
records is modeled by returning the updated record next to the C return value.
-/

set_option maxRecDepth 8000

/-- NUL character used to model C string termination and out-of-range reads. -/
def c0 : Char := Char.ofNat 0

/-- Characters of a Lean string literal, used to write down C strings. -/
def strL (s : String) : List Char := s.data

/-- Byte read at index i of a C string; reading at or past the end yields NUL. -/
def charAt (s : List Char) (i : Nat) : Char := s.getD i c0

/-- C isspace in the default locale: space, tab, newline, vtab, formfeed, cr. -/
def isSpaceC (c : Char) : Bool :=
  c = ' ' || c = '\t' || c = '\n' || c = Char.ofNat 11 || c = Char.ofNat 12 || c = '\r'

/-- ASCII decimal digit test. -/
def isDigitC (c : Char) : Bool := 48 ≤ c.toNat && c.toNat ≤ 57

/-- Number of leading whitespace bytes (the initial isspace skip of strtol). -/
def skipSpaceL : List Char → Nat
  | [] => 0
  | c :: r => if isSpaceC c then skipSpaceL r + 1 else 0

/-- Value of the leading run of decimal digits extending acc, together with
the number of digit bytes consumed. -/
def scanDigitsL : List Char → Nat → Nat × Nat
  | [], acc => (acc, 0)
  | c :: r, acc =>
    if isDigitC c then
      let v := scanDigitsL r (acc * 10 + (c.toNat - 48))
      (v.1, v.2 + 1)
    else (acc, 0)

/-- strchr(p, c) for a newline: offset of the first newline byte, scanning
stopping at a NUL byte, none when no newline is found. -/
def findNLL : List Char → Option Nat
  | [] => none
  | c :: r =>
    if c = '\n' then some 0
    else if c = c0 then none
    else (findNLL r).map (fun k => k + 1)

/-- virStrToLong_ull with base 10 (strtoull semantics: leading isspace skip,
optional sign with negation in unsigned arithmetic, ERANGE above 2^64 - 1),
failing when no digit byte was consumed.  Yields the value and the index one
past the last digit. -/
def virStrToLong_ull (s : List Char) (i : Nat) : Option (Nat × Nat) :=
  let j := i + skipSpaceL (s.drop i)
  let k := if charAt s j = '-' ∨ charAt s j = '+' then j + 1 else j
  let d := scanDigitsL (s.drop k) 0
  if d.2 = 0 then none
  else if 2 ^ 64 ≤ d.1 then none
  else some (if charAt s j = '-' then (2 ^ 64 - d.1) % 2 ^ 64 else d.1, k + d.2)

/-- virStrToLong_i with base 10: strtol into long followed by the cast-to-int
range check; fails when no digit byte was consumed or the value does not fit
in int. -/
def virStrToLong_i (s : List Char) (i : Nat) : Option (Int × Nat) :=
  let j := i + skipSpaceL (s.drop i)
  let k := if charAt s j = '-' ∨ charAt s j = '+' then j + 1 else j
  let d := scanDigitsL (s.drop k) 0
  let val : Int := if charAt s j = '-' then -(d.1 : Int) else (d.1 : Int)
  if d.2 = 0 then none
  else if val < -(2 ^ 31) ∨ (2 ^ 31 : Int) ≤ val then none
  else some (val, k + d.2)

/-- Name scan of the vdi list lines: advance over non-space bytes, a
backslash additionally stepping over the byte that follows it. -/
def scanNameL : List Char → Nat
  | [] => 0
  | c :: r =>
    if c = c0 ∨ c = ' ' then 0
    else if c = '\\' then
      match r with
      | [] => 2
      | _ :: r2 => scanNameL r2 + 2
    else scanNameL r + 1

/-- Index reached by the name scan started at index p. -/
def scanName (s : List Char) (p : Nat) : Nat := p + scanNameL (s.drop p)

/-- Unsigned 64-bit subtraction, as computed by capacity - allocation on
unsigned long long operands below 2^64. -/
def sub64 (a b : Nat) : Nat := (a + 2 ^ 64 - b) % 2 ^ 64

/-- The marker tested by STRPREFIX(p, "Total ") in the node info parse. -/
def totalTag : List Char := strL "Total "

/-- Line starts of a blob: offset 0, or the offset just after a newline. -/
def isLineStart (s : List Char) (i : Nat) : Prop := i = 0 ∨ charAt s (i - 1) = '\n'

instance (s : List Char) (i : Nat) : Decidable (isLineStart s i) := by
  unfold isLineStart; infer_instance

/-- One host entry of a pool definition source (name NULL when absent, port 0
when unset). -/
structure Host where
  name : Option (List Char)
  port : Nat
deriving DecidableEq

/-- The virStoragePoolDef fields read or written by this backend. -/
structure PoolDef where
  sourceName : List Char
  hosts : List Host
  capacity : Nat
  allocation : Nat
  available : Nat
deriving DecidableEq

/-- The virStorageVolDef fields this backend touches; encryption models a
non-NULL vol->target.encryption pointer. -/
structure VolDef where
  name : List Char
  vtype : Nat
  capacity : Nat
  allocation : Nat
  targetPath : Option (List Char)
  key : Option (List Char)
  encryption : Bool
deriving DecidableEq

/-- virStoragePoolObj: its definition and its volume collection. -/
structure PoolObj where
  pdef : PoolDef
  volumes : List VolDef
deriving DecidableEq

/-- Value of the VIR_STORAGE_VOL_NETWORK enumerator. -/
def VIR_STORAGE_VOL_NETWORK : Nat := 3

/-- Scan loop of virStorageBackendSheepdogParseNodeInfo over the blob s from
index p.  The carried triple is the pool's (capacity, allocation, available)
cells, written through exactly as the C writes through the pool pointer.
Fuel only bounds the recursion; length s + 1 is always enough since each
iteration moves past a newline. -/
def parseNodeInfoLoop (s : List Char) : Nat → Nat → Nat × Nat × Nat → Int × (Nat × Nat × Nat)
  | 0, _, st => (-1, st)
  | fuel + 1, p, st =>
    match findNLL (s.drop p) with
    | none => (-1, st)
    | some off =>
      let nx := p + off + 1
      if (s.drop p).take 6 = totalTag then
        match virStrToLong_ull s (p + 6) with
        | none => (-1, st)
        | some (c, e) =>
          if e + 1 > nx then (-1, (c, st.2.1, st.2.2))
          else
            match virStrToLong_ull s (e + 1) with
            | none => (-1, (c, st.2.1, st.2.2))
            | some (a, _) => (0, (c, a, sub64 c a))
      else parseNodeInfoLoop s fuel nx st

/-- virStorageBackendSheepdogParseNodeInfo: zero the three size fields, then
scan for the first "Total " line and read capacity and allocation from it;
available is capacity - allocation in unsigned 64-bit arithmetic. -/
def virStorageBackendSheepdogParseNodeInfo (pool : PoolDef) (output : List Char) :
    Int × PoolDef :=
  let r := parseNodeInfoLoop output (output.length + 1) 0 (0, 0, 0)
  (r.1, { pool with capacity := r.2.1, allocation := r.2.2.1, available := r.2.2.2 })

/-- Body of one current-marked vdi list line at index p0 (just past the
"= " marker): name scan with backslash escapes, then id, capacity and
allocation; none when one of the three integer reads fails. -/
def parseVdiLine (s srcName : List Char) (p0 : Nat) : Option VolDef :=
  let nlen := scanNameL (s.drop p0)
  let nm := (s.drop p0).take nlen
  match virStrToLong_i s (p0 + nlen) with
  | none => none
  | some (_, e) =>
    match virStrToLong_ull s (e + 1) with
    | none => none
    | some (c, e2) =>
      match virStrToLong_ull s (e2 + 1) with
      | none => none
      | some (a, _) =>
        some { name := nm, vtype := VIR_STORAGE_VOL_NETWORK, capacity := c, allocation := a,
               targetPath := some nm, key := some (srcName ++ '/' :: nm), encryption := false }

/-- Scan loop of virStorageBackendSheepdogParseVdiList: skip lines not marked
'=', and for each current line append the parsed volume to the collection.
An error inside a current line returns -1 keeping the volumes appended so
far (the C return -1 paths do not reach the cleanup label). -/
def parseVdiListLoop (s srcName : List Char) : Nat → Nat → List VolDef → Int × List VolDef
  | 0, _, vols => (-1, vols)
  | fuel + 1, p, vols =>
    match findNLL (s.drop p) with
    | none =>
      if charAt s p = '=' then (-1, vols) else (0, vols)
    | some off =>
      let nx := p + off + 1
      if charAt s p = '=' then
        if p + 2 < nx then
          match parseVdiLine s srcName (p + 2) with
          | none => (-1, vols)
          | some vol => parseVdiListLoop s srcName fuel nx (vols ++ [vol])
        else (-1, vols)
      else parseVdiListLoop s srcName fuel nx vols

/-- virStorageBackendSheepdogParseVdiList: parse every current-marked line of
the vdi list blob into the pool's volume collection. -/
def virStorageBackendSheepdogParseVdiList (pool : PoolObj) (output : List Char) :
    Int × PoolObj :=
  let r := parseVdiListLoop output pool.pdef.sourceName (output.length + 1) 0 pool.volumes
  (r.1, { pool with volumes := r.2 })

/-- Scan loop of virStorageBackendSheepdogParseVdi: find the first
current-marked line and read id, capacity, allocation from it, writing the
volume's capacity cell before the allocation read, as the C does. -/
def parseVdiLoop (s : List Char) : Nat → Nat → Nat × Nat → Int × (Nat × Nat)
  | 0, _, st => (-1, st)
  | fuel + 1, p, st =>
    match findNLL (s.drop p) with
    | none => (-1, st)
    | some off =>
      let nx := p + off + 1
      if charAt s p = '=' then
        if p + 2 < nx then
          let q := scanName s (p + 2)
          match virStrToLong_i s q with
          | none => (-1, st)
          | some (_, e) =>
            match virStrToLong_ull s (e + 1) with
            | none => (-1, st)
            | some (c, e2) =>
              match virStrToLong_ull s (e2 + 1) with
              | none => (-1, (c, st.2))
              | some (a, _) => (0, (c, a))
        else (-1, st)
      else parseVdiLoop s fuel nx st

/-- virStorageBackendSheepdogParseVdi: zero capacity and allocation, then
parse the first current-marked line of the single-volume listing. -/
def virStorageBackendSheepdogParseVdi (vol : VolDef) (output : List Char) :
    Int × VolDef :=
  let r := parseVdiLoop output (output.length + 1) 0 (0, 0)
  (r.1, { vol with capacity := r.2.1, allocation := r.2.2 })

/-- Decimal rendering used by virCommandAddArgFormat with %llu and %d. -/
def natChars (n : Nat) : List Char := (Nat.repr n).data

/-- virStorageBackendSheepdogAddHostArg: the -a address -p port suffix taken
from the first configured host, with defaults localhost and 7000. -/
def virStorageBackendSheepdogAddHostArg (pool : PoolObj) : List (List Char) :=
  let address :=
    match pool.pdef.hosts with
    | [] => strL "localhost"
    | h :: _ =>
      match h.name with
      | none => strL "localhost"
      | some n => n
  let port :=
    match pool.pdef.hosts with
    | [] => 7000
    | h :: _ => if h.port ≠ 0 then h.port else 7000
  [strL "-a", address, strL "-p", natChars port]

/-- Error kinds reported directly by this backend before running a command. -/
inductive SDErr
  | unsupportedConfig
  | invalidOption
deriving DecidableEq

/-- Outcome of one backend operation: the C return value, the error reported
by this layer (if any), the argument vectors handed to the process runner in
order, and the records as left in memory. -/
structure OpResult (α : Type) where
  status : Int
  err : Option SDErr
  trace : List (List (List Char))
  state : α
deriving DecidableEq

/-- virStorageBackendSheepdogRefreshPool: run node info (with host args),
parse the aggregate line, then run vdi list (built without host args in the
source) and parse the volume collection. -/
def virStorageBackendSheepdogRefreshPool (run : List (List Char) → Int × List Char)
    (pool : PoolObj) : OpResult PoolObj :=
  let cmd1 := [strL "collie", strL "node", strL "info", strL "-r"] ++
    virStorageBackendSheepdogAddHostArg pool
  let r1 := run cmd1
  if r1.1 = 0 then
    let r2 := virStorageBackendSheepdogParseNodeInfo pool.pdef r1.2
    let pool2 : PoolObj := { pool with pdef := r2.2 }
    if r2.1 ≠ 0 then ⟨r2.1, none, [cmd1], pool2⟩
    else
      let cmd2 := [strL "collie", strL "vdi", strL "list", strL "-r"]
      let r3 := run cmd2
      if r3.1 = 0 then
        let r4 := virStorageBackendSheepdogParseVdiList pool2 r3.2
        ⟨r4.1, none, [cmd1, cmd2], r4.2⟩
      else ⟨r3.1, none, [cmd1, cmd2], pool2⟩
  else ⟨r1.1, none, [cmd1], pool⟩

/-- Argument vector of the single-volume listing command. -/
def sheepdogRefreshVolCmd (pool : PoolObj) (vol : VolDef) : List (List Char) :=
  [strL "collie", strL "vdi", strL "list", vol.name, strL "-r"] ++
    virStorageBackendSheepdogAddHostArg pool

/-- virStorageBackendSheepdogRefreshVol: list the one volume, parse it, and
on success set type, key and target path. -/
def virStorageBackendSheepdogRefreshVol (run : List (List Char) → Int × List Char)
    (pool : PoolObj) (vol : VolDef) : OpResult VolDef :=
  let cmd := sheepdogRefreshVolCmd pool vol
  let r := run cmd
  if r.1 < 0 then ⟨r.1, none, [cmd], vol⟩
  else
    let r2 := virStorageBackendSheepdogParseVdi vol r.2
    if r2.1 < 0 then ⟨r2.1, none, [cmd], r2.2⟩
    else
      ⟨r2.1, none, [cmd],
        { r2.2 with vtype := VIR_STORAGE_VOL_NETWORK,
                    key := some (pool.pdef.sourceName ++ '/' :: vol.name),
                    targetPath := some vol.name }⟩

/-- Argument vector of the volume-create command. -/
def sheepdogCreateCmd (pool : PoolObj) (vol : VolDef) : List (List Char) :=
  [strL "collie", strL "vdi", strL "create", vol.name, natChars vol.capacity] ++
    virStorageBackendSheepdogAddHostArg pool

/-- virStorageBackendSheepdogCreateVol: reject encrypted volumes before any
command, otherwise run vdi create and then a best-effort RefreshVol whose
status is discarded (the create status is returned). -/
def virStorageBackendSheepdogCreateVol (run : List (List Char) → Int × List Char)
    (pool : PoolObj) (vol : VolDef) : OpResult VolDef :=
  if vol.encryption then ⟨-1, some SDErr.unsupportedConfig, [], vol⟩
  else
    let cmd := sheepdogCreateCmd pool vol
    let r := run cmd
    let rv := virStorageBackendSheepdogRefreshVol run pool vol
    ⟨r.1, none, cmd :: rv.trace, rv.state⟩

/-- Argument vector of the volume-delete command. -/
def sheepdogDeleteCmd (pool : PoolObj) (vol : VolDef) : List (List Char) :=
  [strL "collie", strL "vdi", strL "delete", vol.name] ++
    virStorageBackendSheepdogAddHostArg pool

/-- virStorageBackendSheepdogDeleteVol: virCheckFlags(0, -1) then run the
delete command; the records are never written. -/
def virStorageBackendSheepdogDeleteVol (run : List (List Char) → Int × List Char)
    (pool : PoolObj) (vol : VolDef) (flags : Nat) : OpResult (PoolObj × VolDef) :=
  if flags ≠ 0 then ⟨-1, some SDErr.invalidOption, [], (pool, vol)⟩
  else
    let r := run (sheepdogDeleteCmd pool vol)
    ⟨r.1, none, [sheepdogDeleteCmd pool vol], (pool, vol)⟩

/-- Argument vector of the volume-resize command. -/
def sheepdogResizeCmd (pool : PoolObj) (vol : VolDef) (capacity : Nat) : List (List Char) :=
  [strL "collie", strL "vdi", strL "resize", vol.name, natChars capacity] ++
    virStorageBackendSheepdogAddHostArg pool

/-- virStorageBackendSheepdogResizeVol: virCheckFlags(0, -1) then run the
resize command; the records are never written (in particular the stored
capacity is not updated). -/
def virStorageBackendSheepdogResizeVol (run : List (List Char) → Int × List Char)
    (pool : PoolObj) (vol : VolDef) (capacity : Nat) (flags : Nat) :
    OpResult (PoolObj × VolDef) :=
  if flags ≠ 0 then ⟨-1, some SDErr.invalidOption, [], (pool, vol)⟩
  else
    let r := run (sheepdogResizeCmd pool vol capacity)
    ⟨r.1, none, [sheepdogResizeCmd pool vol capacity], (pool, vol)⟩

/-- A pool with source name p, no configured hosts and an empty collection. -/
def pool0 : PoolObj :=
  { pdef := { sourceName := strL "p", hosts := [], capacity := 0, allocation := 0,
              available := 0 },
    volumes := [] }

/-- A pool definition with nonzero size fields, to observe parser clobbering. -/
def pool1 : PoolDef :=
  { sourceName := strL "p", hosts := [], capacity := 100, allocation := 7, available := 93 }

/-- A pool with one configured host odin:7007. -/
def poolH : PoolObj :=
  { pdef := { sourceName := strL "p", hosts := [{ name := some (strL "odin"), port := 7007 }],
              capacity := 0, allocation := 0, available := 0 },
    volumes := [] }

/-- A plain unencrypted volume record. -/
def volN : VolDef :=
  { name := strL "v1", vtype := 0, capacity := 10, allocation := 0,
    targetPath := none, key := none, encryption := false }

/-- The same volume record with encryption requested. -/
def volE : VolDef := { volN with encryption := true }

/-- A runner answering every command with success and empty stdout. -/
def runZero : List (List Char) → Int × List Char := fun _ => (0, [])

/-- A runner answering the node info command of poolH with a Total line and
every other command with success and empty stdout. -/
def runH : List (List Char) → Int × List Char := fun a =>
  if a = [strL "collie", strL "node", strL "info", strL "-r", strL "-a", strL "odin",
          strL "-p", strL "7007"]
  then (0, strL "Total 10 4 0%\n") else (0, [])

/-- Vdi list blob whose second current line is missing its allocation field. -/
def outC1 : List Char := strL "= vol1 1 10 5 0 123 ab\n= vol2 2 20\n"

/-- Node info blob whose second Total line is not newline-terminated. -/
def outC4 : List Char := strL "Total 3 1 0%\nTotal 9"

/-- The aggregate capacity line of the specification example. -/
def outC5 : List Char := strL "Total 15245667872 117571104 0%\n"

/-- A snapshot line and a current line for the same volume name. -/
def outC6 : List Char := strL "s test 1 99 7 0 1336556634 7c2b25\n= test 3 10 0 0 1336557216 7c2b27\n"

/-- A current line whose volume name contains a backslash-escaped space. -/
def outC7 : List Char := strL "= test\\ name 1 10 0 0 1336556634 7c2b25\n"

lemma charAt_oob (s : List Char) (i : Nat) (h : s.length ≤ i) : charAt s i = c0 := by
  simp [charAt, List.getD, List.getElem?_eq_none h]

lemma lt_length_of_charAt_ne (s : List Char) (i : Nat) (h : charAt s i ≠ c0) :
    i < s.length := by
  by_contra hn
  exact h (charAt_oob s i (Nat.le_of_not_lt hn))

lemma charAt_drop (s : List Char) (p k : Nat) : charAt (s.drop p) k = charAt s (p + k) := by
  induction p generalizing s with
  | zero => simp [charAt]
  | succ p ih =>
    cases s with
    | nil => simp [charAt]
    | cons c r =>
      rw [List.drop_succ_cons, ih r]
      simp [charAt, Nat.succ_add]

lemma findNLL_some (l : List Char) (off : Nat) (h : findNLL l = some off) :
    off < l.length ∧ charAt l off = '\n' := by
  induction l generalizing off with
  | nil => simp [findNLL] at h
  | cons c r ih =>
    simp only [findNLL] at h
    by_cases hc : c = '\n'
    · rw [if_pos hc] at h
      simp only [Option.some.injEq] at h
      subst h
      exact ⟨by simp, by simpa [charAt] using hc⟩
    · rw [if_neg hc] at h
      by_cases h0 : c = c0
      · rw [if_pos h0] at h
        exact absurd h (by simp)
      · rw [if_neg h0, Option.map_eq_some'] at h
        obtain ⟨k, hk, hoff⟩ := h
        obtain ⟨h1, h2⟩ := ih k hk
        subst hoff
        refine ⟨by simpa using Nat.succ_lt_succ h1, ?_⟩
        simpa [charAt] using h2

lemma findNLL_le (l : List Char) (hnul : c0 ∉ l) (k : Nat) (hk : k < l.length)
    (hc : charAt l k = '\n') : ∃ off, findNLL l = some off ∧ off ≤ k := by
  induction l generalizing k with
  | nil => simp at hk
  | cons c r ih =>
    by_cases hcn : c = '\n'
    · exact ⟨0, by simp [findNLL, hcn], Nat.zero_le k⟩
    · have hc0 : c ≠ c0 := fun h => hnul (by rw [← h]; exact List.mem_cons_self c r)
      cases k with
      | zero =>
        simp [charAt] at hc
        exact absurd hc hcn
      | succ k =>
        have hr : c0 ∉ r := fun h => hnul (List.mem_cons_of_mem c h)
        obtain ⟨off, hf, hle⟩ := ih hr k (by simpa using hk) (by simpa [charAt] using hc)
        exact ⟨off + 1, by simp [findNLL, hcn, hc0, hf], Nat.succ_le_succ hle⟩

lemma parseNodeInfoLoop_available (s : List Char) :
    ∀ fuel p st, (parseNodeInfoLoop s fuel p st).1 = 0 →
      ∃ c a, parseNodeInfoLoop s fuel p st = (0, (c, a, sub64 c a)) := by
  intro fuel
  induction fuel with
  | zero =>
    intro p st h
    simp [parseNodeInfoLoop] at h
  | succ fuel ih =>
    intro p st h
    rcases hf : findNLL (s.drop p) with _ | off
    · simp only [parseNodeInfoLoop, hf] at h
      simp at h
    · simp only [parseNodeInfoLoop, hf] at h ⊢
      by_cases ht : (s.drop p).take 6 = totalTag
      · rw [if_pos ht] at h ⊢
        rcases hu : virStrToLong_ull s (p + 6) with _ | ⟨c, e⟩
        · simp only [hu] at h
          simp at h
        · simp only [hu] at h ⊢
          by_cases he : e + 1 > p + off + 1
          · rw [if_pos he] at h
            simp at h
          · rw [if_neg he] at h ⊢
            rcases hu2 : virStrToLong_ull s (e + 1) with _ | ⟨a, e3⟩
            · simp only [hu2] at h
              simp at h
            · simp only [hu2]
              exact ⟨c, a, rfl⟩
      · rw [if_neg ht] at h ⊢
        exact ih _ _ h

lemma vdiListLoop_append (s srcName : List Char) :
    ∀ fuel p vols, isLineStart s p →
      ∃ added, (parseVdiListLoop s srcName fuel p vols).2 = vols ++ added ∧
        ∀ v ∈ added, ∃ i, isLineStart s i ∧ charAt s i = '=' ∧
          parseVdiLine s srcName (i + 2) = some v := by
  intro fuel
  induction fuel with
  | zero =>
    intro p vols _
    exact ⟨[], by simp [parseVdiListLoop], by simp⟩
  | succ fuel ih =>
    intro p vols hls
    rcases hf : findNLL (s.drop p) with _ | off
    · by_cases hc : charAt s p = '='
      · exact ⟨[], by simp [parseVdiListLoop, hf, hc], by simp⟩
      · exact ⟨[], by simp [parseVdiListLoop, hf, hc], by simp⟩
    · have hls2 : isLineStart s (p + off + 1) := by
        obtain ⟨_, hch⟩ := findNLL_some (s.drop p) off hf
        rw [charAt_drop] at hch
        exact Or.inr (by simpa using hch)
      by_cases hc : charAt s p = '='
      · by_cases h2 : p + 2 < p + off + 1
        · rcases hline : parseVdiLine s srcName (p + 2) with _ | vol
          · exact ⟨[], by simp [parseVdiListLoop, hf, hc, h2, hline], by simp⟩
          · obtain ⟨added, hadd, hprov⟩ := ih (p + off + 1) (vols ++ [vol]) hls2
            refine ⟨vol :: added, ?_, ?_⟩
            · simp only [parseVdiListLoop, hf, if_pos hc, if_pos h2, hline]
              rw [hadd]
              simp
            · intro v hv
              rcases List.mem_cons.mp hv with rfl | hv2
              · exact ⟨p, hls, hc, hline⟩
              · exact hprov v hv2
        · exact ⟨[], by simp [parseVdiListLoop, hf, hc, h2], by simp⟩
      · obtain ⟨added, hadd, hprov⟩ := ih (p + off + 1) vols hls2
        refine ⟨added, ?_, hprov⟩
        simp only [parseVdiListLoop, hf, if_neg hc]
        exact hadd

lemma vdiListLoop_unterminated (s srcName : List Char) (hnul : c0 ∉ s) (i : Nat)
    (hls : isLineStart s i) (hc : charAt s i = '=') (hnl : findNLL (s.drop i) = none) :
    ∀ fuel p vols, s.length + 1 ≤ fuel + p → p ≤ i →
      (parseVdiListLoop s srcName fuel p vols).1 = -1 := by
  have hi : i < s.length := lt_length_of_charAt_ne s i (by rw [hc]; decide)
  intro fuel
  induction fuel with
  | zero =>
    intro p vols hfuel hpi
    omega
  | succ fuel ih =>
    intro p vols hfuel hpi
    rcases Nat.eq_or_lt_of_le hpi with heq | hlt
    · subst heq
      simp [parseVdiListLoop, hnl, hc]
    · have hprev : charAt s (i - 1) = '\n' := by
        rcases (show i = 0 ∨ charAt s (i - 1) = '\n' from hls) with h0 | h
        · omega
        · exact h
      have hnul2 : c0 ∉ s.drop p := fun h => hnul (List.drop_subset p s h)
      have hgd : charAt (s.drop p) (i - 1 - p) = '\n' := by
        rw [charAt_drop, show p + (i - 1 - p) = i - 1 by omega]
        exact hprev
      obtain ⟨off, hf, hoff⟩ := findNLL_le (s.drop p) hnul2 (i - 1 - p)
        (by simp only [List.length_drop]; omega) hgd
      have hnx : p + off + 1 ≤ i := by omega
      by_cases hcp : charAt s p = '='
      · simp only [parseVdiListLoop, hf, if_pos hcp]
        by_cases h2 : p + 2 < p + off + 1
        · rw [if_pos h2]
          rcases hline : parseVdiLine s srcName (p + 2) with _ | vol
          · rfl
          · exact ih (p + off + 1) (vols ++ [vol]) (by omega) hnx
        · rw [if_neg h2]
      · simp only [parseVdiListLoop, hf, if_neg hcp]
        exact ih (p + off + 1) vols (by omega) hnx

lemma nodeInfoLoop_unterminated (s : List Char) (hnul : c0 ∉ s) (i : Nat)
    (hls : isLineStart s i) (ht : (s.drop i).take 6 = totalTag)
    (hnl : findNLL (s.drop i) = none)
    (hfirst : ∀ j, j < i → ¬ (isLineStart s j ∧ (s.drop j).take 6 = totalTag)) :
    ∀ fuel p st, s.length + 1 ≤ fuel + p → p ≤ i → isLineStart s p →
      (parseNodeInfoLoop s fuel p st).1 = -1 := by
  have hi : i < s.length := by
    by_contra hn
    rw [List.drop_eq_nil_of_le (Nat.le_of_not_lt hn)] at ht
    exact absurd ht (by decide)
  intro fuel
  induction fuel with
  | zero =>
    intro p st hfuel hpi _
    omega
  | succ fuel ih =>
    intro p st hfuel hpi hlsp
    rcases Nat.eq_or_lt_of_le hpi with heq | hlt
    · subst heq
      simp [parseNodeInfoLoop, hnl]
    · have hprev : charAt s (i - 1) = '\n' := by
        rcases (show i = 0 ∨ charAt s (i - 1) = '\n' from hls) with h0 | h
        · omega
        · exact h
      have hnul2 : c0 ∉ s.drop p := fun h => hnul (List.drop_subset p s h)
      have hgd : charAt (s.drop p) (i - 1 - p) = '\n' := by
        rw [charAt_drop, show p + (i - 1 - p) = i - 1 by omega]
        exact hprev
      obtain ⟨off, hf, hoff⟩ := findNLL_le (s.drop p) hnul2 (i - 1 - p)
        (by simp only [List.length_drop]; omega) hgd
      have hnx : p + off + 1 ≤ i := by omega
      have htp : ¬ ((s.drop p).take 6 = totalTag) := fun htag =>
        hfirst p hlt ⟨hlsp, htag⟩
      simp only [parseNodeInfoLoop, hf, if_neg htp]
      refine ih (p + off + 1) st (by omega) hnx ?_
      obtain ⟨_, hch⟩ := findNLL_some (s.drop p) off hf
      rw [charAt_drop] at hch
      exact Or.inr (by simpa using hch)

lemma vdiLoop_unterminated (s : List Char) (hnul : c0 ∉ s) (i : Nat)
    (hls : isLineStart s i) (hc : charAt s i = '=') (hnl : findNLL (s.drop i) = none)
    (hfirst : ∀ j, j < i → ¬ (isLineStart s j ∧ charAt s j = '=')) :
    ∀ fuel p st, s.length + 1 ≤ fuel + p → p ≤ i → isLineStart s p →
      (parseVdiLoop s fuel p st).1 = -1 := by
  have hi : i < s.length := lt_length_of_charAt_ne s i (by rw [hc]; decide)
  intro fuel
  induction fuel with
  | zero =>
    intro p st hfuel hpi _
    omega
  | succ fuel ih =>
    intro p st hfuel hpi hlsp
    rcases Nat.eq_or_lt_of_le hpi with heq | hlt
    · subst heq
      simp [parseVdiLoop, hnl]
    · have hprev : charAt s (i - 1) = '\n' := by
        rcases (show i = 0 ∨ charAt s (i - 1) = '\n' from hls) with h0 | h
        · omega
        · exact h
      have hnul2 : c0 ∉ s.drop p := fun h => hnul (List.drop_subset p s h)
      have hgd : charAt (s.drop p) (i - 1 - p) = '\n' := by
        rw [charAt_drop, show p + (i - 1 - p) = i - 1 by omega]
        exact hprev
      obtain ⟨off, hf, hoff⟩ := findNLL_le (s.drop p) hnul2 (i - 1 - p)
        (by simp only [List.length_drop]; omega) hgd
      have hnx : p + off + 1 ≤ i := by omega
      have hcp : ¬ (charAt s p = '=') := fun hch => hfirst p hlt ⟨hlsp, hch⟩
      simp only [parseVdiLoop, hf, if_neg hcp]
      refine ih (p + off + 1) st (by omega) hnx ?_
      obtain ⟨_, hch⟩ := findNLL_some (s.drop p) off hf
      rw [charAt_drop] at hch
      exact Or.inr (by simpa using hch)

/-- C1: the claim says a vdi list parse failure leaves the pool's volume
collection empty.  The code instead returns -1 on the malformed second line
while keeping the volume parsed from the first line appended to the pool
(the return -1 paths bypass the cleanup label that clears the collection):
evaluating the embedded parser on the failing blob shows status -1 together
with a non-empty collection holding vol1. -/
theorem c1_vdilist_failure_keeps_partial_volumes :
    (virStorageBackendSheepdogParseVdiList pool0 outC1).1 = -1 ∧
    (virStorageBackendSheepdogParseVdiList pool0 outC1).2.volumes =
      [{ name := strL "vol1", vtype := 3, capacity := 10, allocation := 5,
         targetPath := some (strL "vol1"), key := some (strL "p/vol1"),
         encryption := false }] := by
  constructor
  · decide
  · decide

/-- C2: the claim says the pool-wide volume-list command is
vdi list -r -a address -p port.  In the code RefreshPool builds this one
command without calling AddHostArg: on a pool configured with host
odin:7007 the node info command carries the host flags but the vdi list
command is exactly collie vdi list -r, with no -a, -p or address argument. -/
theorem c2_vdilist_command_lacks_host_args :
    (virStorageBackendSheepdogRefreshPool runH poolH).trace =
      [[strL "collie", strL "node", strL "info", strL "-r", strL "-a", strL "odin",
        strL "-p", strL "7007"],
       [strL "collie", strL "vdi", strL "list", strL "-r"]] ∧
    strL "-a" ∉ (virStorageBackendSheepdogRefreshPool runH poolH).trace.getD 1 [] ∧
    strL "-p" ∉ (virStorageBackendSheepdogRefreshPool runH poolH).trace.getD 1 [] ∧
    strL "odin" ∉ (virStorageBackendSheepdogRefreshPool runH poolH).trace.getD 1 [] := by
  refine ⟨?_, ?_, ?_, ?_⟩ <;> decide

/-- C3 counterexample: the aggregate-capacity parser zeroes the pool's size
fields at entry, so a failing parse of the empty blob leaves capacity 0 where
the pool held 100 before the call, contradicting the claim that no field of
the record differs from its value before the call on parse failure. -/
theorem c3_parse_failure_modifies_pool :
    (virStorageBackendSheepdogParseNodeInfo pool1 []).1 = -1 ∧
    (virStorageBackendSheepdogParseNodeInfo pool1 []).2.capacity ≠ pool1.capacity := by
  constructor
  · decide
  · decide

/-- C3 amended: on failure each parser leaves untouched every field other
than the size fields it exists to compute, but those size fields are not
preserved: the aggregate parser keeps source name and hosts while resetting
capacity, allocation and available to zero at entry (shown on the empty
blob), the single-volume parser keeps name, type, target path, key and
encryption while resetting capacity and allocation, and the volume-list
parser keeps the pool definition and the pre-existing volumes while possibly
appending volumes parsed before the failure. -/
theorem c3_parser_frame_amended :
    (∀ pool out,
      (virStorageBackendSheepdogParseNodeInfo pool out).2.sourceName = pool.sourceName ∧
      (virStorageBackendSheepdogParseNodeInfo pool out).2.hosts = pool.hosts) ∧
    (∀ pool, virStorageBackendSheepdogParseNodeInfo pool [] =
      (-1, { pool with capacity := 0, allocation := 0, available := 0 })) ∧
    (∀ vol out,
      (virStorageBackendSheepdogParseVdi vol out).2.name = vol.name ∧
      (virStorageBackendSheepdogParseVdi vol out).2.vtype = vol.vtype ∧
      (virStorageBackendSheepdogParseVdi vol out).2.targetPath = vol.targetPath ∧
      (virStorageBackendSheepdogParseVdi vol out).2.key = vol.key ∧
      (virStorageBackendSheepdogParseVdi vol out).2.encryption = vol.encryption) ∧
    (∀ vol, virStorageBackendSheepdogParseVdi vol [] =
      (-1, { vol with capacity := 0, allocation := 0 })) ∧
    (∀ pool out,
      (virStorageBackendSheepdogParseVdiList pool out).2.pdef = pool.pdef ∧
      ∃ added, (virStorageBackendSheepdogParseVdiList pool out).2.volumes =
        pool.volumes ++ added) := by
  refine ⟨fun pool out => ⟨rfl, rfl⟩, fun pool => rfl,
    fun vol out => ⟨rfl, rfl, rfl, rfl, rfl⟩, fun vol => rfl, fun pool out => ⟨rfl, ?_⟩⟩
  obtain ⟨added, hadd, _⟩ := vdiListLoop_append out pool.pdef.sourceName
    (out.length + 1) 0 pool.volumes (Or.inl rfl)
  exact ⟨added, by simpa [virStorageBackendSheepdogParseVdiList] using hadd⟩

/-- C4 counterexample: a blob whose final meaningful line is unterminated can
still parse successfully.  In outC4 the line starting at offset 13 begins
with the Total marker and has no trailing newline, yet the aggregate parser
succeeds with data from the first Total line, refuting the for-every-blob
claim. -/
theorem c4_unterminated_total_line_success :
    isLineStart outC4 13 ∧ (outC4.drop 13).take 6 = totalTag ∧
    findNLL (outC4.drop 13) = none ∧
    virStorageBackendSheepdogParseNodeInfo pool1 outC4 =
      (0, { pool1 with capacity := 3, allocation := 1, available := 2 }) := by
  refine ⟨?_, ?_, ?_, ?_⟩ <;> decide

/-- C4 amended: for NUL-free blobs, the volume-list parser fails whenever any
current-marked line is unterminated (such a line is necessarily the final
one); the aggregate-capacity and single-volume parsers fail whenever their
first meaningful line (first Total-marked, respectively first current-marked)
is unterminated — if an earlier meaningful line was already consumed the scan
stops there and an unterminated later line is never reached. -/
theorem c4_unterminated_meaningful_line_amended :
    (∀ pool out, c0 ∉ out →
      (∃ i, isLineStart out i ∧ charAt out i = '=' ∧ findNLL (out.drop i) = none) →
      (virStorageBackendSheepdogParseVdiList pool out).1 = -1) ∧
    (∀ pool out, c0 ∉ out →
      (∃ i, isLineStart out i ∧ (out.drop i).take 6 = totalTag ∧
        findNLL (out.drop i) = none ∧
        ∀ j, j < i → ¬ (isLineStart out j ∧ (out.drop j).take 6 = totalTag)) →
      (virStorageBackendSheepdogParseNodeInfo pool out).1 = -1) ∧
    (∀ vol out, c0 ∉ out →
      (∃ i, isLineStart out i ∧ charAt out i = '=' ∧ findNLL (out.drop i) = none ∧
        ∀ j, j < i → ¬ (isLineStart out j ∧ charAt out j = '=')) →
      (virStorageBackendSheepdogParseVdi vol out).1 = -1) := by
  refine ⟨?_, ?_, ?_⟩
  · rintro pool out hnul ⟨i, hls, hc, hnl⟩
    simpa [virStorageBackendSheepdogParseVdiList] using
      vdiListLoop_unterminated out pool.pdef.sourceName hnul i hls hc hnl
        (out.length + 1) 0 pool.volumes (by omega) (Nat.zero_le i)
  · rintro pool out hnul ⟨i, hls, ht, hnl, hfirst⟩
    simpa [virStorageBackendSheepdogParseNodeInfo] using
      nodeInfoLoop_unterminated out hnul i hls ht hnl hfirst
        (out.length + 1) 0 (0, 0, 0) (by omega) (Nat.zero_le i) (Or.inl rfl)
  · rintro vol out hnul ⟨i, hls, hc, hnl, hfirst⟩
    simpa [virStorageBackendSheepdogParseVdi] using
      vdiLoop_unterminated out hnul i hls hc hnl hfirst
        (out.length + 1) 0 (0, 0) (by omega) (Nat.zero_le i) (Or.inl rfl)

/-- C4 witness: the amended theorem applied to the concrete one-line blob
"= x 1" with no trailing newline, whose only line is current-marked, makes
the volume-list parser fail. -/
theorem c4_unterminated_meaningful_line_witness :
    (c0 ∉ strL "= x 1" ∧ isLineStart (strL "= x 1") 0 ∧
      charAt (strL "= x 1") 0 = '=' ∧ findNLL ((strL "= x 1").drop 0) = none) ∧
    (virStorageBackendSheepdogParseVdiList pool0 (strL "= x 1")).1 = -1 :=
  ⟨⟨by decide, by decide, by decide, by decide⟩,
    c4_unterminated_meaningful_line_amended.1 pool0 (strL "= x 1") (by decide)
      ⟨0, by decide, by decide, by decide⟩⟩

/-- C5: on the node-info line Total 15245667872 117571104 0% with trailing
newline the aggregate parser succeeds with capacity 15245667872, allocation
117571104 and available 15128096768, and in every successful parse available
equals capacity minus allocation in unsigned 64-bit arithmetic. -/
theorem c5_total_line_parse :
    virStorageBackendSheepdogParseNodeInfo pool0.pdef outC5 =
      (0, { pool0.pdef with capacity := 15245667872, allocation := 117571104,
                            available := 15128096768 }) ∧
    ∀ pool out, (virStorageBackendSheepdogParseNodeInfo pool out).1 = 0 →
      (virStorageBackendSheepdogParseNodeInfo pool out).2.available =
        sub64 (virStorageBackendSheepdogParseNodeInfo pool out).2.capacity
              (virStorageBackendSheepdogParseNodeInfo pool out).2.allocation := by
  constructor
  · decide
  · intro pool out h
    obtain ⟨c, a, hr⟩ := parseNodeInfoLoop_available out (out.length + 1) 0 (0, 0, 0)
      (by simpa only [virStorageBackendSheepdogParseNodeInfo] using h)
    simp only [virStorageBackendSheepdogParseNodeInfo, hr]

/-- C5 witness: the universal part of the theorem applied to the successful
concrete parse of outC5. -/
theorem c5_total_line_parse_witness :
    (virStorageBackendSheepdogParseNodeInfo pool0.pdef outC5).1 = 0 ∧
    (virStorageBackendSheepdogParseNodeInfo pool0.pdef outC5).2.available =
      sub64 (virStorageBackendSheepdogParseNodeInfo pool0.pdef outC5).2.capacity
            (virStorageBackendSheepdogParseNodeInfo pool0.pdef outC5).2.allocation :=
  ⟨by decide, c5_total_line_parse.2 pool0.pdef outC5 (by decide)⟩

/-- C6: on a blob holding a snapshot line and a current line for the same
name the parsed collection holds exactly one volume, built from the current
line (capacity 10, not the snapshot's 99); and for every input every volume
added to the collection arises from some current-marked line start, so lines
whose marker is not the current marker never produce volume records. -/
theorem c6_snapshot_lines_filtered :
    virStorageBackendSheepdogParseVdiList pool0 outC6 =
      (0, { pool0 with volumes := [{ name := strL "test", vtype := 3, capacity := 10,
                                     allocation := 0, targetPath := some (strL "test"),
                                     key := some (strL "p/test"),
                                     encryption := false }] }) ∧
    ∀ pool out, ∃ added,
      (virStorageBackendSheepdogParseVdiList pool out).2.volumes = pool.volumes ++ added ∧
      ∀ v ∈ added, ∃ i, isLineStart out i ∧ charAt out i = '=' ∧
        parseVdiLine out pool.pdef.sourceName (i + 2) = some v := by
  constructor
  · decide
  · intro pool out
    obtain ⟨added, hadd, hprov⟩ := vdiListLoop_append out pool.pdef.sourceName
      (out.length + 1) 0 pool.volumes (Or.inl rfl)
    exact ⟨added, by simpa [virStorageBackendSheepdogParseVdiList] using hadd, hprov⟩

/-- C6 witness: the universal part of the theorem instantiated at the
concrete blob outC6 and pool0. -/
theorem c6_snapshot_lines_filtered_witness :
    ∃ added,
      (virStorageBackendSheepdogParseVdiList pool0 outC6).2.volumes =
        pool0.volumes ++ added ∧
      ∀ v ∈ added, ∃ i, isLineStart outC6 i ∧ charAt outC6 i = '=' ∧
        parseVdiLine outC6 pool0.pdef.sourceName (i + 2) = some v :=
  c6_snapshot_lines_filtered.2 pool0 outC6

/-- C7: on the current line with the escaped space the parser stores the
name with the backslash escape preserved verbatim (ten bytes including the
backslash and the space), the name scan from offset 2 stops at offset 12
just past the escaped region, the id read next is 1, and the volume's
capacity is 10 and allocation 0. -/
theorem c7_escaped_name_verbatim :
    virStorageBackendSheepdogParseVdiList pool0 outC7 =
      (0, { pool0 with volumes := [{ name := strL "test\\ name", vtype := 3,
                                     capacity := 10, allocation := 0,
                                     targetPath := some (strL "test\\ name"),
                                     key := some (strL "p/test\\ name"),
                                     encryption := false }] }) ∧
    scanName outC7 2 = 12 ∧
    (virStrToLong_i outC7 (scanName outC7 2)).map Prod.fst = some 1 := by
  refine ⟨?_, ?_, ?_⟩ <;> decide

/-- C8: CreateVolume on a volume with encryption set fails with the
unsupported-configuration error and an empty command trace; without
encryption the check passes, the create command is the first command built
and run, and the returned status is the runner's status for it. -/
theorem c8_encryption_rejected :
    (∀ run pool vol, vol.encryption = true →
      virStorageBackendSheepdogCreateVol run pool vol =
        ⟨-1, some SDErr.unsupportedConfig, [], vol⟩) ∧
    (∀ run pool vol, vol.encryption = false →
      (virStorageBackendSheepdogCreateVol run pool vol).err = none ∧
      (virStorageBackendSheepdogCreateVol run pool vol).trace =
        sheepdogCreateCmd pool vol ::
          (virStorageBackendSheepdogRefreshVol run pool vol).trace ∧
      (virStorageBackendSheepdogCreateVol run pool vol).status =
        (run (sheepdogCreateCmd pool vol)).1) := by
  constructor
  · intro run pool vol h
    simp [virStorageBackendSheepdogCreateVol, h]
  · intro run pool vol h
    refine ⟨?_, ?_, ?_⟩ <;> simp [virStorageBackendSheepdogCreateVol, h]

/-- C8 witness: the theorem applied to the concrete encrypted volume volE
(immediate rejection, no command) and to the unencrypted volume volN (the
create command is issued first). -/
theorem c8_encryption_rejected_witness :
    (volE.encryption = true ∧
      virStorageBackendSheepdogCreateVol runZero pool0 volE =
        ⟨-1, some SDErr.unsupportedConfig, [], volE⟩) ∧
    (volN.encryption = false ∧
      (virStorageBackendSheepdogCreateVol runZero pool0 volN).trace =
        sheepdogCreateCmd pool0 volN ::
          (virStorageBackendSheepdogRefreshVol runZero pool0 volN).trace) :=
  ⟨⟨by decide, c8_encryption_rejected.1 runZero pool0 volE (by decide)⟩,
   ⟨by decide, (c8_encryption_rejected.2 runZero pool0 volN (by decide)).2.1⟩⟩

/-- C9: DeleteVolume and ResizeVolume with any non-zero flags fail with the
invalid-option error before any command is built (empty trace); with flags
zero they build and run exactly their command and return the runner's
status, never reporting an error of this layer. -/
theorem c9_nonzero_flags_rejected :
    (∀ run pool vol cap flags, flags ≠ 0 →
      virStorageBackendSheepdogDeleteVol run pool vol flags =
        ⟨-1, some SDErr.invalidOption, [], (pool, vol)⟩ ∧
      virStorageBackendSheepdogResizeVol run pool vol cap flags =
        ⟨-1, some SDErr.invalidOption, [], (pool, vol)⟩) ∧
    (∀ run pool vol cap,
      virStorageBackendSheepdogDeleteVol run pool vol 0 =
        ⟨(run (sheepdogDeleteCmd pool vol)).1, none, [sheepdogDeleteCmd pool vol],
          (pool, vol)⟩ ∧
      virStorageBackendSheepdogResizeVol run pool vol cap 0 =
        ⟨(run (sheepdogResizeCmd pool vol cap)).1, none, [sheepdogResizeCmd pool vol cap],
          (pool, vol)⟩) := by
  constructor
  · intro run pool vol cap flags h
    constructor <;>
      simp [virStorageBackendSheepdogDeleteVol, virStorageBackendSheepdogResizeVol, h]
  · intro run pool vol cap
    constructor <;>
      simp [virStorageBackendSheepdogDeleteVol, virStorageBackendSheepdogResizeVol]

/-- C9 witness: the rejection part of the theorem applied at flags value 1
for the concrete pool and volume. -/
theorem c9_nonzero_flags_rejected_witness :
    virStorageBackendSheepdogDeleteVol runZero pool0 volN 1 =
      ⟨-1, some SDErr.invalidOption, [], (pool0, volN)⟩ ∧
    virStorageBackendSheepdogResizeVol runZero pool0 volN 20 1 =
      ⟨-1, some SDErr.invalidOption, [], (pool0, volN)⟩ :=
  c9_nonzero_flags_rejected.1 runZero pool0 volN 20 1 (by decide)

/-- C10: DeleteVolume and ResizeVolume never modify the in-memory pool or
volume records: for every runner, flags value and requested capacity the
records in the result equal the records passed in, field for field, whatever
the external command's exit status — in particular a successful resize does
not update the stored capacity. -/
theorem c10_delete_resize_frame :
    ∀ run pool vol cap flags,
      (virStorageBackendSheepdogDeleteVol run pool vol flags).state = (pool, vol) ∧
      (virStorageBackendSheepdogResizeVol run pool vol cap flags).state = (pool, vol) := by
  intro run pool vol cap flags
  by_cases h : flags = 0 <;>
    constructor <;>
      simp [virStorageBackendSheepdogDeleteVol, virStorageBackendSheepdogResizeVol, h]
